import Mathlib

/-!
# influxdb-tg-bot — verification of the notification lifecycle

Shallow embedding of the notification subsystem of the `influxdb-tg-bot`
repository: the record store (`src/storage/index.ts` with its data model
`src/storage/model.ts`), the interval scheduler (`InfluxIntervalReader`),
and the evaluator/dispatcher (`InfluxTelegramBot.handleNotificationValue`
in `src/telegram.ts`).

Modelling conventions:
* JavaScript numbers that the claims exercise are embedded as `Int`
  (all concrete values in the claims are integers).
* A JS `Map` is embedded as an insertion-ordered association list with
  `Map.set` / `Map.get` / `Map.delete` semantics.
* Async functions are embedded as pure state-passing functions; a thrown
  exception is an `Except.error`; the number of `persist()` (whole-document
  rewrite) calls is returned as a `Nat`.
* `Array.prototype.sort` (stable since ES2019) with the comparator
  `(a, b) => a.name.localeCompare(b.name)` is embedded as `List.mergeSort`
  (a stable sort) over an abstract total comparator `lle` standing for
  `localeCompare(·, ·) ≤ 0`; `localeCompare` is locale-dependent, so the
  development is parametrised over it.
-/

namespace TgBot

/-! ## Data model (`src/storage/model.ts`, `src/influx/model.ts`) -/

/-- `InfluxTagFilter` from `src/influx/model.ts`. -/
structure InfluxTagFilter where
  tag : String
  value : String
deriving DecidableEq, Repr

/-- `InfluxRow` from `src/influx/model.ts`: the fields the notification
subsystem reads (`_value`; `_measurement`, `_field`, `_time` are carried
for structure). Leading underscores are dropped. The dynamic tag columns
(index signature) are not consumed by the dispatcher and are omitted. -/
structure InfluxRow where
  measurement : String
  field : String
  value : Int
  time : String
deriving DecidableEq, Repr

/-- The six comparison-operator literals `'<' | '>' | '<=' | '>=' | '==' | '!='`
of `Notification.operator`. -/
inductive Operator
  | lt | gt | le | ge | eq | ne
deriving DecidableEq, Repr

/-- `Action` from `src/storage/model.ts`. -/
structure Action where
  id : String
  name : String
  command : String
deriving DecidableEq, Repr

/-- `Notification` from `src/storage/model.ts`. `whereFilters` embeds the
`where` field (a Lean keyword). -/
structure Notification where
  id : String
  name : String
  operator : Operator
  value : Int
  intervalMs : Int
  bucket : String
  measurement : String
  field : String
  whereFilters : List InfluxTagFilter
deriving DecidableEq, Repr

/-- `User` from `src/storage/model.ts`. -/
structure User where
  id : Int
  chatId : Int
  actions : List Action
  notifications : List Notification
deriving DecidableEq, Repr

/-- `Storage = User[]`. -/
abbrev Storage := List User

/-- `ActionInput = Omit<Action, 'id'>`. -/
structure ActionInput where
  name : String
  command : String
deriving DecidableEq, Repr

/-- `NotificationInput = Omit<Notification, 'id' | 'operator'> & { operator: string }`. -/
structure NotificationInput where
  name : String
  operator : String
  value : Int
  intervalMs : Int
  bucket : String
  measurement : String
  field : String
  whereFilters : List InfluxTagFilter
deriving DecidableEq, Repr

/-- Hex-digit test used by the UUID format check. -/
def isHexDigit (c : Char) : Bool :=
  c.isDigit || ('a' ≤ c && c ≤ 'f') || ('A' ≤ c && c ≤ 'F')

/-- Embeds zod's `z.string().uuid()` format check (8-4-4-4-12 hex groups
separated by hyphens). -/
def isUuid (s : String) : Bool :=
  let cs := s.toList
  cs.length == 36 &&
    (List.range 36).all (fun i =>
      if i == 8 || i == 13 || i == 18 || i == 23 then cs.getD i '0' == '-'
      else isHexDigit (cs.getD i '0'))

/-- The `z.union` of the six operator literals in `NotificationValidator`. -/
def parseOperator : String → Option Operator
  | "<" => some .lt
  | ">" => some .gt
  | "<=" => some .le
  | ">=" => some .ge
  | "==" => some .eq
  | "!=" => some .ne
  | _ => none

/-- Inverse direction, used when serializing a `Notification` back to the
persisted document. -/
def operatorToString : Operator → String
  | .lt => "<"
  | .gt => ">"
  | .le => "<="
  | .ge => ">="
  | .eq => "=="
  | .ne => "!="

/-- `ActionValidator.parse({...input, id})`: `id` must be a UUID, the other
fields are unconstrained strings. `none` models a thrown `ZodError`. -/
def ActionValidator.parse (id : String) (input : ActionInput) : Option Action :=
  if isUuid id then some { id := id, name := input.name, command := input.command }
  else none

/-- `NotificationValidator.parse({...input, id})`: `id` must be a UUID, the
`operator` string must be one of the six literals, and
`intervalMs: z.number().min(1000)` requires `1000 ≤ intervalMs`.
`none` models a thrown `ZodError`. -/
def NotificationValidator.parse (id : String) (input : NotificationInput) :
    Option Notification :=
  match parseOperator input.operator with
  | none => none
  | some op =>
    if isUuid id && decide (1000 ≤ input.intervalMs) then
      some { id := id, name := input.name, operator := op, value := input.value,
             intervalMs := input.intervalMs, bucket := input.bucket,
             measurement := input.measurement, field := input.field,
             whereFilters := input.whereFilters }
    else none

/-- Errors thrown by the store: `ZodError` from a validator, or the
`Error('User not found with ID: ...')` thrown by the internal `getUser`. -/
inductive StorageError
  | zodError
  | userNotFound (id : Int)
deriving DecidableEq, Repr

/-! ## Record store (`src/storage/index.ts`) -/

/-- `getUser` (internal): `storage.find(u => u.id === id)`, throwing when
absent. -/
def getUser (s : Storage) (id : Int) : Except StorageError User :=
  match s.find? (fun u => u.id == id) with
  | some u => .ok u
  | none => .error (.userNotFound id)

/-- `userExists`: `storage.some(u => u.id === userId)`. -/
def userExists (s : Storage) (userId : Int) : Bool :=
  s.any (fun u => u.id == userId)

/-- In-place mutation of the user object returned by `storage.find` is
embedded as replacing the first user with that id. -/
def setFirstUser : Storage → Int → User → Storage
  | [], _, _ => []
  | u :: us, uid, u' => if u.id == uid then u' :: us else u :: setFirstUser us uid u'

/-- `createUserIfNotExists`. The `Nat` counts `persist()` calls. -/
def createUserIfNotExists (s : Storage) (userId chatId : Int) : Storage × Nat :=
  if userExists s userId then (s, 0)
  else (s ++ [{ id := userId, chatId := chatId, actions := [], notifications := [] }], 1)

/-- `addAction`: `getUser`, then `ActionValidator.parse({...input, id: uuid4()})`,
push, stable-sort by name, persist. `lle` models `localeCompare(·,·) ≤ 0`;
`freshId` models `uuid4()`. -/
def addAction (lle : String → String → Bool) (s : Storage) (userId : Int)
    (input : ActionInput) (freshId : String) : Except StorageError (Storage × Nat) :=
  match getUser s userId with
  | .error e => .error e
  | .ok user =>
    match ActionValidator.parse freshId input with
    | none => .error .zodError
    | some action =>
      let user' := { user with
        actions := (user.actions ++ [action]).mergeSort (fun a b => lle a.name b.name) }
      .ok (setFirstUser s userId user', 1)

/-- `removeAction`: `findIndex` + `splice(i, 1)` on the first match is
embedded as `find?` + `eraseP`; returns the removed record or `null`,
persisting only when a record was removed. -/
def removeAction (s : Storage) (userId : Int) (actionId : String) :
    Except StorageError (Storage × Option Action × Nat) :=
  match getUser s userId with
  | .error e => .error e
  | .ok user =>
    match user.actions.find? (fun a => a.id == actionId) with
    | some action =>
      let user' := { user with actions := user.actions.eraseP (fun a => a.id == actionId) }
      .ok (setFirstUser s userId user', some action, 1)
    | none => .ok (s, none, 0)

/-- `getAllNotifications`: `storage.flatMap(u => u.notifications)`. -/
def getAllNotifications (s : Storage) : List Notification :=
  s.flatMap (fun u => u.notifications)

/-- `addNotification`: `NotificationValidator.parse({...input, id: uuid4()})`
first (before `getUser`), then push, stable-sort by name, persist, and
return the new notification. -/
def addNotification (lle : String → String → Bool) (s : Storage) (userId : Int)
    (input : NotificationInput) (freshId : String) :
    Except StorageError (Storage × Notification × Nat) :=
  match NotificationValidator.parse freshId input with
  | none => .error .zodError
  | some notification =>
    match getUser s userId with
    | .error e => .error e
    | .ok user =>
      let user' := { user with
        notifications :=
          (user.notifications ++ [notification]).mergeSort (fun a b => lle a.name b.name) }
      .ok (setFirstUser s userId user', notification, 1)

/-- `removeNotification`: same contract as `removeAction`. -/
def removeNotification (s : Storage) (userId : Int) (notificationId : String) :
    Except StorageError (Storage × Option Notification × Nat) :=
  match getUser s userId with
  | .error e => .error e
  | .ok user =>
    match user.notifications.find? (fun n => n.id == notificationId) with
    | some notification =>
      let user' := { user with
        notifications := user.notifications.eraseP (fun n => n.id == notificationId) }
      .ok (setFirstUser s userId user', some notification, 1)
    | none => .ok (s, none, 0)

/-- `getNotificationUser`: the first user whose notification list contains
the id, else `null`. -/
def getNotificationUser (s : Storage) (notificationId : String) : Option User :=
  s.find? (fun u => (u.notifications.find? (fun n => n.id == notificationId)).isSome)

/-! ## Interval scheduler (`InfluxIntervalReader`, `src/influx-interval-reader` module) -/

/-- `Map.get` on the insertion-ordered association list. -/
def mapGet (m : List (String × Nat)) (k : String) : Option Nat :=
  (m.find? (fun p => p.1 == k)).map (fun p => p.2)

/-- `Map.set`: replace in place when the key exists, else append. -/
def mapSet (m : List (String × Nat)) (k : String) (v : Nat) : List (String × Nat) :=
  if m.any (fun p => p.1 == k) then m.map (fun p => if p.1 == k then (k, v) else p)
  else m ++ [(k, v)]

/-- `Map.delete`: removes the (unique) entry with the key. -/
def mapDelete (m : List (String × Nat)) (k : String) : List (String × Nat) :=
  m.eraseP (fun p => p.1 == k)

/-- The scheduler's state: `private readonly intervalMap: Map<string, NodeJS.Timeout>`.
Timer handles are opaque; their values never matter, only key membership. -/
structure InfluxIntervalReader where
  intervalMap : List (String × Nat)
deriving DecidableEq, Repr

/-- `create(params)`: `setInterval(...)` then `intervalMap.set(id, interval)`.
`timer` stands for the fresh `NodeJS.Timeout` handle. -/
def readerCreate (r : InfluxIntervalReader) (id : String) (timer : Nat) :
    InfluxIntervalReader :=
  { intervalMap := mapSet r.intervalMap id timer }

/-- `init(params)`: `params.forEach(p => this.create(p))`. -/
def readerInit (r : InfluxIntervalReader) (ids : List String) : InfluxIntervalReader :=
  ids.foldl (fun acc id => readerCreate acc id 0) r

/-- `remove(id)`: clear and delete when present, logged no-op when absent. -/
def readerRemove (r : InfluxIntervalReader) (id : String) : InfluxIntervalReader :=
  match mapGet r.intervalMap id with
  | some _ => { intervalMap := mapDelete r.intervalMap id }
  | none => r

/-- `InfluxIntervalReadData`: the payload of the `'data'` event. -/
structure InfluxIntervalReadData where
  id : String
  rows : List InfluxRow
deriving DecidableEq, Repr

/-- One tick of the `setInterval` callback in `create`: the query outcome is
`Except.error` when `getLastValue` threw (caught and logged), `.ok none` when
it returned `null`, `.ok (some rows)` otherwise. The event is emitted under
`if (rows)`, which in JS is true for the empty array as well. -/
def tickEmit (id : String) (res : Except Unit (Option (List InfluxRow))) :
    Option InfluxIntervalReadData :=
  match res with
  | .error _ => none
  | .ok none => none
  | .ok (some rows) => some { id := id, rows := rows }

/-! ## Evaluator/dispatcher (`handleNotificationValue`, `src/telegram.ts`) -/

/-- Combined state of the store and the scheduler as seen by the bot. -/
structure BotState where
  storage : Storage
  reader : InfluxIntervalReader
deriving DecidableEq, Repr

/-- Observable effects of one dispatcher run, in program order.
`send` records a `bot.telegram.sendMessage` invocation (chat id, notification
name, and the `row._value` included in the message text — the markdown
formatting itself is external I/O). -/
inductive BotEvent
  | send (chatId : Int) (name : String) (value : Int)
  | schedRemove (id : String)
  | storeRemove (userId : Int) (notificationId : String)
deriving DecidableEq, Repr

/-- Modelled from the spec: `getValueOperatorFunc` is imported by
`src/telegram.ts` from `src/util.ts`, but the provided `util.ts` sources do
not contain it. Spec §4.3: "apply the Notification's operator to
`(sample.value, threshold)` using standard numeric comparison semantics for
the six operators". -/
def getValueOperatorFunc (n : Notification) (row : InfluxRow) : Bool :=
  match n.operator with
  | .lt => decide (row.value < n.value)
  | .gt => decide (row.value > n.value)
  | .le => decide (row.value ≤ n.value)
  | .ge => decide (row.value ≥ n.value)
  | .eq => decide (row.value = n.value)
  | .ne => decide (row.value ≠ n.value)

/-- `handleNotificationValue(data)`. `sendOk` is whether
`bot.telegram.sendMessage` resolves; when it rejects, the `await` rethrows and
the rest of the handler is skipped (the returned `Bool` is false). The inner
`storage.removeNotification` call is not awaited; a rejection there leaves the
store untouched but does not abort the handler. -/
def handleNotificationValue (st : BotState) (data : InfluxIntervalReadData)
    (sendOk : Bool) : BotState × List BotEvent × Bool :=
  match (getAllNotifications st.storage).find? (fun n => n.id == data.id), data.rows with
  | some notification, row :: _ =>
    -- if (notification && data.rows.length > 0)
    if getValueOperatorFunc notification row then
      match getNotificationUser st.storage notification.id with
      | none => (st, [], true)
      | some user =>
        if sendOk then
          let r' := readerRemove st.reader data.id
          match removeNotification st.storage user.id notification.id with
          | .ok (s', _, _) =>
            (⟨s', r'⟩,
             [.send user.chatId notification.name row.value,
              .schedRemove data.id,
              .storeRemove user.id notification.id], true)
          | .error _ =>
            (⟨st.storage, r'⟩,
             [.send user.chatId notification.name row.value,
              .schedRemove data.id], true)
        else
          (st, [.send user.chatId notification.name row.value], false)
    else (st, [], true)
  | _, _ =>
    -- 'Unknown notification (removing...)': also reached when data.rows is empty
    ({ st with reader := readerRemove st.reader data.id }, [.schedRemove data.id], true)

/-- Is the event a message-delivery attempt? -/
def isSendEvent : BotEvent → Bool
  | .send _ _ _ => true
  | _ => false

/-- Feeds the dispatcher one read-result per sample row (all deliveries
succeeding), returning the final state and the delivery count per sample. -/
def dispatchRun (st : BotState) (id : String) (samples : List InfluxRow) :
    BotState × List Nat :=
  samples.foldl
    (fun acc row =>
      let step := handleNotificationValue acc.1 { id := id, rows := [row] } true
      (step.1, acc.2 ++ [step.2.1.countP isSendEvent]))
    (st, [])

/-! ## Concrete fixtures used by witnesses and counterexamples -/

/-- A string accepted by `isUuid` (shape of a `uuid4()` output). -/
def uuidA : String := "aaaaaaaa-aaaa-4aaa-aaaa-aaaaaaaaaaaa"

/-- A second `isUuid`-accepted string. -/
def uuidB : String := "bbbbbbbb-bbbb-4bbb-bbbb-bbbbbbbbbbbb"

/-- A notification with `operator = '>'`, `value = 10`. -/
def sampleNotification : Notification :=
  { id := uuidA, name := "temp", operator := .gt, value := 10, intervalMs := 1000,
    bucket := "b", measurement := "m", field := "f", whereFilters := [] }

/-- A user owning `sampleNotification`. -/
def sampleUser : User :=
  { id := 1, chatId := 100, actions := [], notifications := [sampleNotification] }

/-- A row carrying the given `_value`. -/
def sampleRow (v : Int) : InfluxRow :=
  { measurement := "m", field := "f", value := v, time := "t" }

/-- Store with `sampleUser`; scheduler with one timer for `sampleNotification`. -/
def sampleState : BotState :=
  { storage := [sampleUser], reader := { intervalMap := [(uuidA, 0)] } }

/-! ## General list helpers -/

/-- Erasing the first `q`-match cannot move the first `p`-match when no
`p`-match is a `q`-match. -/
theorem find?_eraseP_frame {α : Type} (p q : α → Bool)
    (h : ∀ x, p x = true → q x = false) :
    ∀ l : List α, (l.eraseP q).find? p = l.find? p := by
  intro l
  induction l with
  | nil => rfl
  | cons a t ih =>
    by_cases hq : q a
    · rw [List.eraseP_cons_of_pos hq]
      have hpa : ¬ p a = true := fun hp => by simp [h a hp] at hq
      rw [List.find?_cons_of_neg _ hpa]
    · rw [List.eraseP_cons_of_neg hq]
      by_cases hp : p a
      · rw [List.find?_cons_of_pos _ hp, List.find?_cons_of_pos _ hp]
      · rw [List.find?_cons_of_neg _ hp, List.find?_cons_of_neg _ hp, ih]

/-- With nodup keys, deleting a key makes it unfindable. -/
theorem mapGet_mapDelete_self (m : List (String × Nat)) (k : String)
    (h : (m.map Prod.fst).Nodup) : mapGet (mapDelete m k) k = none := by
  induction m with
  | nil => rfl
  | cons a t ih =>
    rw [List.map_cons, List.nodup_cons] at h
    by_cases hk : a.1 = k
    · rw [show mapDelete (a :: t) k = t from List.eraseP_cons_of_pos (by simp [hk])]
      have hnone : t.find? (fun p => p.1 == k) = none := by
        rw [List.find?_eq_none]
        intro x hx hpx
        apply h.1
        have hxk : x.1 = k := by simpa using hpx
        rw [hk, ← hxk]
        exact List.mem_map_of_mem Prod.fst hx
      simp [mapGet, hnone]
    · rw [show mapDelete (a :: t) k = a :: mapDelete t k from
        List.eraseP_cons_of_neg (by simp [hk])]
      rw [mapGet, List.find?_cons_of_neg _ (by simp [hk])]
      exact ih h.2

/-! ## Dispatcher characterization lemmas -/

/-- Orphan path: no matching notification in the store. -/
theorem hnv_orphan (st : BotState) (i : String) (rows : List InfluxRow) (sendOk : Bool)
    (h : (getAllNotifications st.storage).find? (fun n => n.id == i) = none) :
    handleNotificationValue st ⟨i, rows⟩ sendOk =
      ({ st with reader := readerRemove st.reader i }, [.schedRemove i], true) := by
  cases rows <;>
    (unfold handleNotificationValue; dsimp only; rw [h])

/-- Empty-rows path: the `else` branch fires even for a known notification. -/
theorem hnv_empty (st : BotState) (i : String) (sendOk : Bool) :
    handleNotificationValue st ⟨i, []⟩ sendOk =
      ({ st with reader := readerRemove st.reader i }, [.schedRemove i], true) := by
  unfold handleNotificationValue
  dsimp only
  cases (getAllNotifications st.storage).find? (fun n => n.id == i) <;> rfl

/-- Condition-not-satisfied path: nothing happens. -/
theorem hnv_nofire (st : BotState) (i : String) (row : InfluxRow) (rest : List InfluxRow)
    (sendOk : Bool) (n : Notification)
    (hfind : (getAllNotifications st.storage).find? (fun m => m.id == i) = some n)
    (hfunc : getValueOperatorFunc n row = false) :
    handleNotificationValue st ⟨i, row :: rest⟩ sendOk = (st, [], true) := by
  unfold handleNotificationValue
  dsimp only
  rw [hfind]
  simp [hfunc]

/-- Fire path: condition satisfied and owner resolved. With a successful send,
delivery happens first and retirement second; with a rejected send, the
handler aborts after the send attempt and nothing is retired. -/
theorem hnv_fire (st : BotState) (i : String) (row : InfluxRow) (rest : List InfluxRow)
    (n m0 : Notification) (u : User)
    (hfind : (getAllNotifications st.storage).find? (fun m => m.id == i) = some n)
    (hfunc : getValueOperatorFunc n row = true)
    (howner : getNotificationUser st.storage n.id = some u)
    (hufirst : st.storage.find? (fun w => w.id == u.id) = some u)
    (hm : u.notifications.find? (fun m => m.id == n.id) = some m0) :
    handleNotificationValue st ⟨i, row :: rest⟩ true =
      (⟨setFirstUser st.storage u.id
          { u with notifications := u.notifications.eraseP (fun m => m.id == n.id) },
        readerRemove st.reader i⟩,
       [.send u.chatId n.name row.value, .schedRemove i, .storeRemove u.id n.id], true)
    ∧ handleNotificationValue st ⟨i, row :: rest⟩ false =
        (st, [.send u.chatId n.name row.value], false) := by
  have hremove : removeNotification st.storage u.id n.id =
      .ok (setFirstUser st.storage u.id
            { u with notifications := u.notifications.eraseP (fun m => m.id == n.id) },
          some m0, 1) := by
    unfold removeNotification getUser
    rw [hufirst]
    simp [hm]
  constructor
  · unfold handleNotificationValue
    dsimp only
    rw [hfind]
    simp [hfunc, howner, hremove]
  · unfold handleNotificationValue
    dsimp only
    rw [hfind]
    simp [hfunc, howner]

/-! ## Claim C1 -/

/-- **C1 counterexample**: an empty query result is `.ok (some [])`; the tick
emits a read-result for it (the `if (rows)` guard in
`InfluxIntervalReader.create` is true for `[]`), and on that event the
dispatcher changes the system state: the notification's timer, registered
beforehand, is removed from the scheduler. This falsifies "the Scheduler
emits nothing for that tick and the system state is unchanged". -/
theorem empty_result_claim_counterexample :
    tickEmit uuidA (Except.ok (some [])) ≠ none
    ∧ mapGet sampleState.reader.intervalMap uuidA = some 0
    ∧ (getAllNotifications sampleState.storage).find? (fun m => m.id == uuidA)
        = some sampleNotification
    ∧ mapGet (handleNotificationValue sampleState ⟨uuidA, []⟩ true).1.reader.intervalMap uuidA
        = none := by decide

/-- **C1 (amended)**: on a tick whose series query returns an empty result,
the reader emits the read-result with an empty `rows` array; the dispatcher
then sends no message and leaves the Store unchanged, but it removes the
id's timer from the Scheduler. -/
theorem empty_result_tick_removes_timer (s : Storage) (r : InfluxIntervalReader)
    (i : String) (sendOk : Bool) :
    tickEmit i (Except.ok (some [])) = some ⟨i, []⟩
    ∧ handleNotificationValue ⟨s, r⟩ ⟨i, []⟩ sendOk =
        (⟨s, readerRemove r i⟩, [.schedRemove i], true) :=
  ⟨rfl, hnv_empty ⟨s, r⟩ i sendOk⟩

/-! ## Claim C3 -/

/-- **C3**: a read-result whose id has no matching notification in the store
makes the dispatcher call `Scheduler.remove(id)` and nothing else: no message
is sent and the store is unchanged, so the scheduler converges with the
store after an out-of-band removal. -/
theorem orphan_tick_converges (s : Storage) (r : InfluxIntervalReader) (i : String)
    (rows : List InfluxRow) (sendOk : Bool)
    (h : (getAllNotifications s).find? (fun n => n.id == i) = none) :
    handleNotificationValue ⟨s, r⟩ ⟨i, rows⟩ sendOk =
      (⟨s, readerRemove r i⟩, [.schedRemove i], true) :=
  hnv_orphan ⟨s, r⟩ i rows sendOk h

/-- Witness for C3 at a concrete orphaned read-result. -/
theorem orphan_tick_converges_witness :
    (getAllNotifications ([] : Storage)).find? (fun n => n.id == uuidA) = none
    ∧ handleNotificationValue ⟨[], ⟨[(uuidA, 0)]⟩⟩ ⟨uuidA, [sampleRow 12]⟩ true =
        (⟨[], readerRemove ⟨[(uuidA, 0)]⟩ uuidA⟩, [.schedRemove uuidA], true) :=
  ⟨by decide, orphan_tick_converges [] ⟨[(uuidA, 0)]⟩ uuidA [sampleRow 12] true (by decide)⟩

/-! ## Claim C5 -/

/-- **C5**: `Scheduler.remove` on an unregistered id is a no-op (the model is
total, so it cannot throw), removing twice equals removing once (on states
with `Map`-unique keys), and every other id's timer is untouched. -/
theorem reader_remove_unknown_noop (r : InfluxIntervalReader) (i : String) :
    (mapGet r.intervalMap i = none → readerRemove r i = r)
    ∧ ((r.intervalMap.map Prod.fst).Nodup →
        readerRemove (readerRemove r i) i = readerRemove r i)
    ∧ (∀ j, j ≠ i → mapGet (readerRemove r i).intervalMap j = mapGet r.intervalMap j) := by
  refine ⟨?_, ?_, ?_⟩
  · intro h
    unfold readerRemove
    rw [h]
  · intro h
    cases hm : mapGet r.intervalMap i with
    | none =>
      have h0 : readerRemove r i = r := by unfold readerRemove; rw [hm]
      rw [h0]
      exact h0
    | some t =>
      have h1 : readerRemove r i = ⟨mapDelete r.intervalMap i⟩ := by
        unfold readerRemove; rw [hm]
      rw [h1]
      unfold readerRemove
      rw [show mapGet (⟨mapDelete r.intervalMap i⟩ : InfluxIntervalReader).intervalMap i = none
            from mapGet_mapDelete_self _ _ h]
  · intro j hj
    cases hm : mapGet r.intervalMap i with
    | none =>
      have h0 : readerRemove r i = r := by unfold readerRemove; rw [hm]
      rw [h0]
    | some t =>
      have h1 : readerRemove r i = ⟨mapDelete r.intervalMap i⟩ := by
        unfold readerRemove; rw [hm]
      rw [h1]
      show mapGet (mapDelete r.intervalMap i) j = mapGet r.intervalMap j
      have hfr : ∀ x : String × Nat, (x.1 == j) = true → (x.1 == i) = false := by
        intro x hx
        have hxj : x.1 = j := by simpa using hx
        simp [hxj, hj]
      unfold mapGet mapDelete
      rw [find?_eraseP_frame (fun (p : String × Nat) => p.1 == j)
            (fun (p : String × Nat) => p.1 == i) hfr r.intervalMap]

/-- Witness for C5: removing an id that was never registered, and removing
twice after a successful removal. -/
theorem reader_remove_unknown_noop_witness :
    readerRemove ⟨[(uuidA, 0)]⟩ uuidB = ⟨[(uuidA, 0)]⟩
    ∧ mapGet (readerRemove ⟨[(uuidA, 0)]⟩ uuidB).intervalMap uuidA
        = mapGet (⟨[(uuidA, 0)]⟩ : InfluxIntervalReader).intervalMap uuidA
    ∧ readerRemove (readerRemove ⟨[(uuidA, 0)]⟩ uuidA) uuidA
        = readerRemove ⟨[(uuidA, 0)]⟩ uuidA :=
  ⟨(reader_remove_unknown_noop ⟨[(uuidA, 0)]⟩ uuidB).1 (by decide),
   (reader_remove_unknown_noop ⟨[(uuidA, 0)]⟩ uuidB).2.2 uuidA (by decide),
   (reader_remove_unknown_noop ⟨[(uuidA, 0)]⟩ uuidA).2.1 (by decide)⟩

/-! ## Claim C10 -/

/-- **C10**: when `removeAction`/`removeNotification` return `null` for a
present user (id not found), no `persist()` runs and the table is returned
unchanged. -/
theorem remove_miss_no_persist (s : Storage) (uid : Int) (aid nid : String) (u : User)
    (hu : s.find? (fun w => w.id == uid) = some u)
    (ha : u.actions.find? (fun a => a.id == aid) = none)
    (hn : u.notifications.find? (fun n => n.id == nid) = none) :
    removeAction s uid aid = .ok (s, none, 0)
    ∧ removeNotification s uid nid = .ok (s, none, 0) := by
  constructor
  · unfold removeAction getUser
    rw [hu]
    simp [ha]
  · unfold removeNotification getUser
    rw [hu]
    simp [hn]

/-- Witness for C10 at a concrete store. -/
theorem remove_miss_no_persist_witness :
    removeAction [sampleUser] 1 uuidB = .ok ([sampleUser], none, 0)
    ∧ removeNotification [sampleUser] 1 uuidB = .ok ([sampleUser], none, 0) :=
  remove_miss_no_persist [sampleUser] 1 uuidB uuidB sampleUser
    (by decide) (by decide) (by decide)

/-! ## Claim C8 -/

/-- A second user fixture owning one action and no notifications. -/
def sampleAction : Action := { id := uuidB, name := "act", command := "/x" }

/-- User 2 owning `sampleAction`. -/
def sampleUser2 : User := { id := 2, chatId := 200, actions := [sampleAction], notifications := [] }

/-- **C8**: for a present user, `removeAction`/`removeNotification` return the
removed record when the id is found and `null` when it is not; for an absent
user they throw the `getUser` not-found error instead of returning `null`. -/
theorem remove_returns_null_or_throws (s : Storage) (uid : Int) (aid nid : String) :
    (∀ u, s.find? (fun w => w.id == uid) = some u →
      (∀ a, u.actions.find? (fun x => x.id == aid) = some a →
          removeAction s uid aid =
            .ok (setFirstUser s uid
                  { u with actions := u.actions.eraseP (fun x => x.id == aid) }, some a, 1))
      ∧ (u.actions.find? (fun x => x.id == aid) = none →
          removeAction s uid aid = .ok (s, none, 0))
      ∧ (∀ n, u.notifications.find? (fun x => x.id == nid) = some n →
          removeNotification s uid nid =
            .ok (setFirstUser s uid
                  { u with notifications := u.notifications.eraseP (fun x => x.id == nid) },
                some n, 1))
      ∧ (u.notifications.find? (fun x => x.id == nid) = none →
          removeNotification s uid nid = .ok (s, none, 0)))
    ∧ (s.find? (fun w => w.id == uid) = none →
        removeAction s uid aid = .error (.userNotFound uid)
        ∧ removeNotification s uid nid = .error (.userNotFound uid)) := by
  constructor
  · intro u hu
    refine ⟨?_, ?_, ?_, ?_⟩
    · intro a ha
      unfold removeAction getUser
      rw [hu]
      simp [ha]
    · intro ha
      unfold removeAction getUser
      rw [hu]
      simp [ha]
    · intro n hn
      unfold removeNotification getUser
      rw [hu]
      simp [hn]
    · intro hn
      unfold removeNotification getUser
      rw [hu]
      simp [hn]
  · intro hu
    constructor
    · unfold removeAction getUser
      rw [hu]
    · unfold removeNotification getUser
      rw [hu]

/-- Witness for C8: a found removal, a null removal, and a not-found throw. -/
theorem remove_returns_null_or_throws_witness :
    removeAction [sampleUser2] 2 uuidB =
      .ok (setFirstUser [sampleUser2] 2
            { sampleUser2 with
              actions := sampleUser2.actions.eraseP (fun x => x.id == uuidB) }, some sampleAction, 1)
    ∧ removeNotification [sampleUser2] 2 uuidA = .ok ([sampleUser2], none, 0)
    ∧ removeAction [sampleUser2] 7 uuidB = .error (.userNotFound 7) :=
  ⟨(((remove_returns_null_or_throws [sampleUser2] 2 uuidB uuidA).1 sampleUser2
      (by decide)).1 sampleAction (by decide)),
   (((remove_returns_null_or_throws [sampleUser2] 2 uuidB uuidA).1 sampleUser2
      (by decide)).2.2.2 (by decide)),
   ((remove_returns_null_or_throws [sampleUser2] 7 uuidB uuidA).2 (by decide)).1⟩

/-! ## Claim C9 -/

/-- The notification object assembled by `NotificationValidator.parse` on a
valid input. -/
def builtNotification (freshId : String) (input : NotificationInput) (op : Operator) :
    Notification :=
  { id := freshId, name := input.name, operator := op, value := input.value,
    intervalMs := input.intervalMs, bucket := input.bucket,
    measurement := input.measurement, field := input.field,
    whereFilters := input.whereFilters }

/-- A well-formed creation input (operator given as the string `">"`). -/
def sampleInput : NotificationInput :=
  { name := "x", operator := ">", value := 10, intervalMs := 1000, bucket := "b",
    measurement := "m", field := "f", whereFilters := [] }

/-- **C9**: `intervalMs = 500` fails validation with a `ZodError` before any
store mutation (the model returns no new table and no persist on error),
`intervalMs = 1000` succeeds, and the 1000 ms minimum is enforced for every
input. -/
theorem notification_min_interval (lle : String → String → Bool) (s : Storage)
    (uid : Int) (input : NotificationInput) (freshId : String) :
    (∀ i : Int, i < 1000 →
      addNotification lle s uid { input with intervalMs := i } freshId = .error .zodError)
    ∧ addNotification lle s uid { input with intervalMs := 500 } freshId = .error .zodError
    ∧ (∀ u op, s.find? (fun w => w.id == uid) = some u →
        isUuid freshId = true → parseOperator input.operator = some op →
        addNotification lle s uid { input with intervalMs := 1000 } freshId =
          .ok (setFirstUser s uid
                { u with notifications :=
                    (u.notifications ++ [builtNotification freshId { input with intervalMs := 1000 } op]).mergeSort (fun a b => lle a.name b.name) },
               builtNotification freshId { input with intervalMs := 1000 } op, 1)) := by
  have key : ∀ i : Int, i < 1000 →
      addNotification lle s uid { input with intervalMs := i } freshId = .error .zodError := by
    intro i hi
    unfold addNotification NotificationValidator.parse
    dsimp only
    cases hop : parseOperator input.operator with
    | none => rfl
    | some op =>
      have hd : decide (1000 ≤ i) = false := by simp; omega
      simp [hd]
  refine ⟨key, key 500 (by omega), ?_⟩
  intro u op hu huuid hop
  unfold addNotification NotificationValidator.parse getUser
  dsimp only
  rw [hop]
  simp [huuid, hu, builtNotification]

/-- Witness for C9: boundary inputs 500 and 1000 at a concrete store. -/
theorem notification_min_interval_witness :
    addNotification (fun a b => decide (a.length ≤ b.length)) [sampleUser] 1
        { sampleInput with intervalMs := 500 } uuidB = .error .zodError
    ∧ addNotification (fun a b => decide (a.length ≤ b.length)) [sampleUser] 1
        { sampleInput with intervalMs := 1000 } uuidB =
      .ok (setFirstUser [sampleUser] 1
            { sampleUser with notifications :=
                (sampleUser.notifications ++ [builtNotification uuidB { sampleInput with intervalMs := 1000 } .gt]).mergeSort (fun a b => decide (a.name.length ≤ b.name.length)) },
           builtNotification uuidB { sampleInput with intervalMs := 1000 } .gt, 1) :=
  ⟨(notification_min_interval (fun a b => decide (a.length ≤ b.length)) [sampleUser] 1
      sampleInput uuidB).2.1,
   (notification_min_interval (fun a b => decide (a.length ≤ b.length)) [sampleUser] 1
      sampleInput uuidB).2.2 sampleUser .gt (by decide) (by decide) (by decide)⟩

/-! ## Claim C4 -/

/-- **C4 counterexample**: with the condition satisfied (12 > 10) and the
send rejecting, the handler aborts: the state is fully unchanged — the
notification is still in the store and its timer still registered — even
though a delivery was attempted. This falsifies "the Notification record is
deleted from the Store and its timer cancelled regardless of whether the
message delivery succeeds or fails". -/
theorem delivery_failure_claim_counterexample :
    (handleNotificationValue sampleState ⟨uuidA, [sampleRow 12]⟩ false).1 = sampleState
    ∧ (handleNotificationValue sampleState ⟨uuidA, [sampleRow 12]⟩ false).2.1
        = [.send 100 "temp" 12]
    ∧ (handleNotificationValue sampleState ⟨uuidA, [sampleRow 12]⟩ false).2.2 = false
    ∧ (getAllNotifications sampleState.storage).find? (fun m => m.id == uuidA)
        = some sampleNotification
    ∧ mapGet sampleState.reader.intervalMap uuidA = some 0 := by decide

/-- **C4 (amended)**: on a satisfied condition the send happens first and
retirement second (the event trace is send, then timer removal, then record
removal); the record deletion and timer cancellation happen only when the
send resolves — when it rejects, the handler aborts with the store and the
scheduler unchanged. -/
theorem fire_delivers_then_retires (st : BotState) (i : String) (row : InfluxRow)
    (rest : List InfluxRow) (n m0 : Notification) (u : User)
    (hfind : (getAllNotifications st.storage).find? (fun m => m.id == i) = some n)
    (hfunc : getValueOperatorFunc n row = true)
    (howner : getNotificationUser st.storage n.id = some u)
    (hufirst : st.storage.find? (fun w => w.id == u.id) = some u)
    (hm : u.notifications.find? (fun m => m.id == n.id) = some m0) :
    handleNotificationValue st ⟨i, row :: rest⟩ true =
      (⟨setFirstUser st.storage u.id
          { u with notifications := u.notifications.eraseP (fun m => m.id == n.id) },
        readerRemove st.reader i⟩,
       [.send u.chatId n.name row.value, .schedRemove i, .storeRemove u.id n.id], true)
    ∧ handleNotificationValue st ⟨i, row :: rest⟩ false =
        (st, [.send u.chatId n.name row.value], false) :=
  hnv_fire st i row rest n m0 u hfind hfunc howner hufirst hm

/-- Witness for C4 at the concrete fixture state. -/
theorem fire_delivers_then_retires_witness :
    handleNotificationValue sampleState ⟨uuidA, [sampleRow 12]⟩ true =
      (⟨[{ sampleUser with notifications := [] }], ⟨[]⟩⟩,
       [.send 100 "temp" 12, .schedRemove uuidA, .storeRemove 1 uuidA], true) :=
  ((fire_delivers_then_retires sampleState uuidA (sampleRow 12) [] sampleNotification
      sampleNotification sampleUser (by decide) (by decide) (by decide) (by decide)
      (by decide)).1).trans (by decide)

/-! ## Claim C2 -/

/-- `getAllNotifications` distributes over append. -/
theorem getAllNotifications_append (s1 s2 : Storage) :
    getAllNotifications (s1 ++ s2) = getAllNotifications s1 ++ getAllNotifications s2 := by
  simp [getAllNotifications]

/-- `getAllNotifications` on a cons. -/
theorem getAllNotifications_cons (u : User) (s : Storage) :
    getAllNotifications (u :: s) = u.notifications ++ getAllNotifications s := by
  simp [getAllNotifications]

/-- `setFirstUser` replaces exactly the first user carrying the id. -/
theorem setFirstUser_append (l1 l2 : Storage) (u u' : User) (uid : Int)
    (h1 : ∀ w ∈ l1, (w.id == uid) = false) (hu : (u.id == uid) = true) :
    setFirstUser (l1 ++ u :: l2) uid u' = l1 ++ u' :: l2 := by
  induction l1 with
  | nil =>
    simp only [List.nil_append]
    unfold setFirstUser
    simp [hu]
  | cons a t ih =>
    have ha := h1 a (List.mem_cons_self a t)
    simp only [List.cons_append]
    unfold setFirstUser
    simp only [ha, Bool.false_eq_true, if_false, List.cons.injEq, true_and]
    exact ih (fun w hw => h1 w (List.mem_cons_of_mem a hw))

/-- Erasing the first `p`-match drops the `p`-count by one. -/
theorem countP_eraseP_self {α : Type} (p : α → Bool) :
    ∀ l : List α, (l.find? p).isSome = true → l.countP p = (l.eraseP p).countP p + 1 := by
  intro l
  induction l with
  | nil => intro h; simp at h
  | cons a t ih =>
    intro h
    by_cases hp : p a
    · rw [List.eraseP_cons_of_pos hp, List.countP_cons_of_pos _ _ hp]
    · rw [List.eraseP_cons_of_neg hp, List.countP_cons_of_neg _ _ hp,
        List.countP_cons_of_neg _ _ hp]
      apply ih
      rw [List.find?_cons_of_neg _ hp] at h
      exact h

/-- **C2**: for a notification with `operator = '>'` and `value = 10` (present
once in the store, owner resolvable), the sample sequence [5, 8, 12] produces
deliveries [0, 0, 1] — none on 5 and 8, exactly one on 12 — and immediately
afterwards no notification with that id is in `getAllNotifications()`. -/
theorem greaterThan_sequence_single_delivery
    (s : Storage) (r : InfluxIntervalReader) (n : Notification) (u : User)
    (r5 r8 r12 : InfluxRow)
    (hop : n.operator = Operator.gt) (hval : n.value = 10)
    (h5 : r5.value = 5) (h8 : r8.value = 8) (h12 : r12.value = 12)
    (hfind : (getAllNotifications s).find? (fun m => m.id == n.id) = some n)
    (howner : getNotificationUser s n.id = some u)
    (hufirst : s.find? (fun w => w.id == u.id) = some u)
    (hcount : (getAllNotifications s).countP (fun m => m.id == n.id) = 1) :
    (dispatchRun ⟨s, r⟩ n.id [r5, r8, r12]).2 = [0, 0, 1]
    ∧ ∀ m ∈ getAllNotifications (dispatchRun ⟨s, r⟩ n.id [r5, r8, r12]).1.storage,
        ¬ m.id = n.id := by
  have hfunc5 : getValueOperatorFunc n r5 = false := by
    unfold getValueOperatorFunc
    rw [hop, h5, hval]
    rfl
  have hfunc8 : getValueOperatorFunc n r8 = false := by
    unfold getValueOperatorFunc
    rw [hop, h8, hval]
    rfl
  have hfunc12 : getValueOperatorFunc n r12 = true := by
    unfold getValueOperatorFunc
    rw [hop, h12, hval]
    rfl
  have howner' := howner
  unfold getNotificationUser at howner'
  have hqu := List.find?_some howner'
  simp only [Option.isSome_iff_exists] at hqu
  obtain ⟨m0, hm0⟩ := hqu
  have step5 : handleNotificationValue ⟨s, r⟩ ⟨n.id, [r5]⟩ true = (⟨s, r⟩, [], true) :=
    hnv_nofire ⟨s, r⟩ n.id r5 [] true n hfind hfunc5
  have step8 : handleNotificationValue ⟨s, r⟩ ⟨n.id, [r8]⟩ true = (⟨s, r⟩, [], true) :=
    hnv_nofire ⟨s, r⟩ n.id r8 [] true n hfind hfunc8
  have step12 := (hnv_fire ⟨s, r⟩ n.id r12 [] n m0 u hfind hfunc12 howner hufirst hm0).1
  have hrun : dispatchRun ⟨s, r⟩ n.id [r5, r8, r12] =
      (⟨setFirstUser s u.id
          { u with notifications := u.notifications.eraseP (fun m => m.id == n.id) },
        readerRemove r n.id⟩, [0, 0, 1]) := by
    unfold dispatchRun
    simp only [List.foldl_cons, List.foldl_nil, step5, step8, step12]
    simp [isSendEvent]
  refine ⟨by rw [hrun], ?_⟩
  rw [hrun]
  dsimp only
  obtain ⟨hpu, l1, l2, hs, hl1⟩ := List.find?_eq_some.mp hufirst
  subst hs
  rw [setFirstUser_append l1 l2 u _ u.id (fun w hw => by simpa using hl1 w hw) (by simp)]
  have hcu : u.notifications.countP (fun m => m.id == n.id) =
      (u.notifications.eraseP (fun m => m.id == n.id)).countP (fun m => m.id == n.id) + 1 :=
    countP_eraseP_self _ _ (by rw [hm0]; rfl)
  rw [getAllNotifications_append, getAllNotifications_cons, List.countP_append,
    List.countP_append] at hcount
  have hz : (getAllNotifications
      (l1 ++ { u with notifications := u.notifications.eraseP (fun m => m.id == n.id) } :: l2)).countP
        (fun m => m.id == n.id) = 0 := by
    rw [getAllNotifications_append, getAllNotifications_cons, List.countP_append,
      List.countP_append]
    dsimp only
    omega
  intro m hm
  have := (List.countP_eq_zero.mp hz) m hm
  simpa using this

/-- Witness for C2 at the concrete fixture. -/
theorem greaterThan_sequence_single_delivery_witness :
    (dispatchRun sampleState uuidA [sampleRow 5, sampleRow 8, sampleRow 12]).2 = [0, 0, 1] :=
  (greaterThan_sequence_single_delivery [sampleUser] ⟨[(uuidA, 0)]⟩ sampleNotification
    sampleUser (sampleRow 5) (sampleRow 8) (sampleRow 12) rfl rfl rfl rfl rfl
    (by decide) (by decide) (by decide) (by decide)).1

/-! ## Claim C6 -/

/-- `Map.set` preserves nodup keys. -/
theorem mapSet_keys_nodup (m : List (String × Nat)) (k : String) (v : Nat)
    (h : (m.map Prod.fst).Nodup) : ((mapSet m k v).map Prod.fst).Nodup := by
  unfold mapSet
  by_cases hmem : m.any (fun p => p.1 == k)
  · rw [if_pos hmem]
    have heq : (m.map (fun p => if p.1 == k then (k, v) else p)).map Prod.fst
        = m.map Prod.fst := by
      rw [List.map_map]
      apply List.map_congr_left
      intro p _
      by_cases hpk : (p.1 == k)
      · have hp1 : p.1 = k := by simpa using hpk
        simp [hpk, Function.comp, hp1]
      · simp [hpk, Function.comp]
    rw [heq]
    exact h
  · rw [if_neg hmem]
    rw [List.map_append]
    rw [List.nodup_append]
    refine ⟨h, by simp, ?_⟩
    intro a ha hb
    have hak : a = k := by simpa using hb
    subst hak
    apply hmem
    rw [List.any_eq_true]
    obtain ⟨p, hp, hpk⟩ := List.mem_map.mp ha
    exact ⟨p, hp, by simp [hpk]⟩

/-- `remove` preserves nodup keys. -/
theorem readerRemove_keys_nodup (r : InfluxIntervalReader) (i : String)
    (h : (r.intervalMap.map Prod.fst).Nodup) :
    (((readerRemove r i).intervalMap).map Prod.fst).Nodup := by
  unfold readerRemove
  cases mapGet r.intervalMap i with
  | none => exact h
  | some t =>
    exact List.Nodup.sublist (List.Sublist.map Prod.fst (List.eraseP_sublist _)) h

/-- `init` preserves nodup keys. -/
theorem readerInit_keys_nodup (ids : List String) :
    ∀ r : InfluxIntervalReader, (r.intervalMap.map Prod.fst).Nodup →
      (((readerInit r ids).intervalMap).map Prod.fst).Nodup := by
  induction ids with
  | nil => intro r h; exact h
  | cons i t ih =>
    intro r h
    exact ih (readerCreate r i 0) (mapSet_keys_nodup _ _ _ h)

/-- The dispatcher leaves the reader's key set nodup. -/
theorem hnv_reader_nodup (st : BotState) (data : InfluxIntervalReadData) (sendOk : Bool)
    (h : (st.reader.intervalMap.map Prod.fst).Nodup) :
    (((handleNotificationValue st data sendOk).1.reader.intervalMap).map Prod.fst).Nodup := by
  rcases data with ⟨i, rows⟩
  unfold handleNotificationValue
  dsimp only
  cases hfind : (getAllNotifications st.storage).find? (fun n => n.id == i) with
  | none =>
    cases rows <;> exact readerRemove_keys_nodup st.reader i h
  | some n =>
    cases rows with
    | nil => exact readerRemove_keys_nodup st.reader i h
    | cons row rest =>
      dsimp only
      by_cases hfunc : getValueOperatorFunc n row
      · rw [if_pos hfunc]
        cases getNotificationUser st.storage n.id with
        | none => exact h
        | some u =>
          cases sendOk with
          | false => exact h
          | true =>
            dsimp only
            cases removeNotification st.storage u.id n.id with
            | error e => exact readerRemove_keys_nodup st.reader i h
            | ok res =>
              rcases res with ⟨s', res', k⟩
              exact readerRemove_keys_nodup st.reader i h
      · rw [if_neg hfunc]
        exact h

/-- Reachable bot states: startup replay (`start()`), creation
(`handleAddNotification`), firing (`handleNotificationValue`), and explicit
removal (`handleRemoveNotificationCallback`, which does not touch the
reader). -/
inductive ReachableBot (lle : String → String → Bool) : BotState → Prop
  | boot (s : Storage) :
      ReachableBot lle ⟨s, readerInit ⟨[]⟩ ((getAllNotifications s).map Notification.id)⟩
  | addNotif {st : BotState} (uid : Int) (input : NotificationInput) (freshId : String)
      (timer : Nat) {s' : Storage} {n : Notification} {k : Nat}
      (hr : ReachableBot lle st)
      (hadd : addNotification lle st.storage uid input freshId = .ok (s', n, k)) :
      ReachableBot lle ⟨s', readerCreate st.reader n.id timer⟩
  | fire {st : BotState} (data : InfluxIntervalReadData) (sendOk : Bool)
      (hr : ReachableBot lle st) :
      ReachableBot lle (handleNotificationValue st data sendOk).1
  | explicitRemove {st : BotState} (uid : Int) (nid : String) {s' : Storage}
      {res : Option Notification} {k : Nat}
      (hr : ReachableBot lle st)
      (hrem : removeNotification st.storage uid nid = .ok (s', res, k)) :
      ReachableBot lle ⟨s', st.reader⟩

/-- In every reachable state the interval map has nodup keys. -/
theorem reachable_keys_nodup (lle : String → String → Bool) (st : BotState)
    (h : ReachableBot lle st) : (st.reader.intervalMap.map Prod.fst).Nodup := by
  induction h with
  | boot s => exact readerInit_keys_nodup _ ⟨[]⟩ (by simp)
  | addNotif uid input freshId timer hr hadd ih => exact mapSet_keys_nodup _ _ _ ih
  | fire data sendOk hr ih => exact hnv_reader_nodup _ data _ ih
  | explicitRemove uid nid hr hrem ih => exact ih

/-- A nodup list of strings carries each value at most once. -/
theorem countP_beq_le_one_of_nodup (l : List String) (h : l.Nodup) (x : String) :
    l.countP (fun k => k == x) ≤ 1 := by
  induction l with
  | nil => simp
  | cons a t ih =>
    rw [List.nodup_cons] at h
    rw [List.countP_cons]
    by_cases ha : (a == x)
    · have hz : t.countP (fun k => k == x) = 0 := by
        rw [List.countP_eq_zero]
        intro b hb hbx
        have hb1 : b = x := by simpa using hbx
        have ha1 : a = x := by simpa using ha
        subst hb1
        subst ha1
        exact absurd hb h.1
      simp [ha, hz]
    · simp only [ha, if_false]
      simpa using ih h.2

/-- **C6**: in every reachable state, every notification present in the
store has at most one `intervalMap` entry for its id — creation, startup
replay, firing, and explicit removal all preserve the at-most-one-timer
invariant. -/
theorem store_notification_single_timer (lle : String → String → Bool) (st : BotState)
    (h : ReachableBot lle st) (n : Notification)
    (hmem : n ∈ getAllNotifications st.storage) :
    st.reader.intervalMap.countP (fun p => p.1 == n.id) ≤ 1 := by
  have hnd := reachable_keys_nodup lle st h
  have hc : st.reader.intervalMap.countP (fun p => p.1 == n.id)
      = (st.reader.intervalMap.map Prod.fst).countP (fun k => k == n.id) := by
    rw [List.countP_map]
    rfl
  rw [hc]
  exact countP_beq_le_one_of_nodup _ hnd n.id

/-- Witness for C6: the boot state over a one-user, one-notification store. -/
theorem store_notification_single_timer_witness :
    ((readerInit ⟨[]⟩ ((getAllNotifications [sampleUser]).map Notification.id)).intervalMap).countP
      (fun p => p.1 == sampleNotification.id) ≤ 1 :=
  store_notification_single_timer (fun a b => decide (a.length ≤ b.length))
    ⟨[sampleUser], readerInit ⟨[]⟩ ((getAllNotifications [sampleUser]).map Notification.id)⟩
    (.boot [sampleUser]) sampleNotification (by decide)

/-! ## Claim C7 — the persisted document

`persist()` writes `JSON.stringify(storage)` and `init()` reads it back
through `JSON.parse` and `StorageValidator.parse`, then re-sorts each user's
actions by name. The JSON text layer is exact for the strings and numbers
involved, so serialization is embedded at the JSON-tree level. -/

/-- JSON trees (the shapes exchanged by `JSON.stringify`/`JSON.parse`). -/
inductive Json
  | str (s : String)
  | num (n : Int)
  | arr (items : List Json)
  | obj (fields : List (String × Json))

/-- `JSON.stringify` of an `InfluxTagFilter`. -/
def encodeTagFilter (f : InfluxTagFilter) : Json :=
  .obj [("tag", .str f.tag), ("value", .str f.value)]

/-- `JSON.stringify` of an `Action`. -/
def encodeAction (a : Action) : Json :=
  .obj [("id", .str a.id), ("name", .str a.name), ("command", .str a.command)]

/-- `JSON.stringify` of a `Notification`. -/
def encodeNotification (n : Notification) : Json :=
  .obj [("id", .str n.id), ("name", .str n.name),
        ("operator", .str (operatorToString n.operator)),
        ("value", .num n.value), ("intervalMs", .num n.intervalMs),
        ("bucket", .str n.bucket), ("measurement", .str n.measurement),
        ("field", .str n.field),
        ("where", .arr (n.whereFilters.map encodeTagFilter))]

/-- `JSON.stringify` of a `User`. -/
def encodeUser (u : User) : Json :=
  .obj [("id", .num u.id), ("chatId", .num u.chatId),
        ("actions", .arr (u.actions.map encodeAction)),
        ("notifications", .arr (u.notifications.map encodeNotification))]

/-- `JSON.stringify` of the whole store. -/
def encodeStorage (s : Storage) : Json := .arr (s.map encodeUser)

/-- zod object-field access. -/
def jField (fields : List (String × Json)) (k : String) : Option Json :=
  (fields.find? (fun p => p.1 == k)).map (fun p => p.2)

/-- `z.string()`. -/
def asStr : Json → Option String
  | .str s => some s
  | _ => none

/-- `z.number()`. -/
def asNum : Json → Option Int
  | .num n => some n
  | _ => none

/-- An array node. -/
def asArr : Json → Option (List Json)
  | .arr items => some items
  | _ => none

/-- `.array()`: elementwise parse, failing when any element fails. -/
def decodeListWith {α : Type} (f : Json → Option α) : List Json → Option (List α)
  | [] => some []
  | j :: js =>
    match f j, decodeListWith f js with
    | some a, some as => some (a :: as)
    | _, _ => none

/-- The tag-filter object schema in `NotificationValidator`. -/
def decodeTagFilter (j : Json) : Option InfluxTagFilter :=
  match j with
  | .obj fs =>
    match (jField fs "tag").bind asStr, (jField fs "value").bind asStr with
    | some t, some v => some { tag := t, value := v }
    | _, _ => none
  | _ => none

/-- `ActionValidator` as a decoder. -/
def decodeAction (j : Json) : Option Action :=
  match j with
  | .obj fs =>
    match (jField fs "id").bind asStr, (jField fs "name").bind asStr,
        (jField fs "command").bind asStr with
    | some i, some nm, some c =>
      if isUuid i then some { id := i, name := nm, command := c } else none
    | _, _, _ => none
  | _ => none

/-- `NotificationValidator` as a decoder. -/
def decodeNotification (j : Json) : Option Notification :=
  match j with
  | .obj fs =>
    match (jField fs "id").bind asStr, (jField fs "name").bind asStr,
        (jField fs "operator").bind asStr,
        (jField fs "value").bind asNum, (jField fs "intervalMs").bind asNum,
        (jField fs "bucket").bind asStr, (jField fs "measurement").bind asStr,
        (jField fs "field").bind asStr, (jField fs "where").bind asArr with
    | some i, some nm, some opStr, some v, some ms, some b, some m, some f, some ws =>
      match parseOperator opStr, decodeListWith decodeTagFilter ws with
      | some op, some filters =>
        if isUuid i && decide (1000 ≤ ms) then
          some { id := i, name := nm, operator := op, value := v, intervalMs := ms,
                 bucket := b, measurement := m, field := f, whereFilters := filters }
        else none
      | _, _ => none
    | _, _, _, _, _, _, _, _, _ => none
  | _ => none

/-- `UserValidator` as a decoder; `notifications` defaults to `[]` when the
key is absent (`.default([])`). -/
def decodeUser (j : Json) : Option User :=
  match j with
  | .obj fs =>
    match (jField fs "id").bind asNum, (jField fs "chatId").bind asNum,
        (jField fs "actions").bind asArr with
    | some i, some c, some as =>
      match decodeListWith decodeAction as with
      | some actions =>
        match jField fs "notifications" with
        | none => some { id := i, chatId := c, actions := actions, notifications := [] }
        | some jn =>
          match asArr jn with
          | none => none
          | some ns =>
            match decodeListWith decodeNotification ns with
            | some notifications =>
              some { id := i, chatId := c, actions := actions, notifications := notifications }
            | none => none
      | none => none
    | _, _, _ => none
  | _ => none

/-- `StorageValidator` as a decoder. -/
def decodeStorage (j : Json) : Option Storage :=
  match j with
  | .arr us => decodeListWith decodeUser us
  | _ => none

/-- The load path of `init()`: validate the parsed document, then re-sort
every user's actions by name (`user.actions.sort(...)`). -/
def initReload (lle : String → String → Bool) (j : Json) : Option Storage :=
  (decodeStorage j).map (fun users =>
    users.map (fun u =>
      { u with actions := u.actions.mergeSort (fun a b => lle a.name b.name) }))

/-- An action as produced by `ActionValidator.parse` (UUID id). -/
def validAction (a : Action) : Bool := isUuid a.id

/-- A notification as produced by `NotificationValidator.parse`. -/
def validNotification (n : Notification) : Bool :=
  isUuid n.id && decide (1000 ≤ n.intervalMs)

/-- A user as maintained by the store's mutating operations: validated
records and an action list kept sorted by name. -/
def ValidUser (lle : String → String → Bool) (u : User) : Prop :=
  (∀ a ∈ u.actions, validAction a = true)
  ∧ (∀ n ∈ u.notifications, validNotification n = true)
  ∧ u.actions.Pairwise (fun a b => lle a.name b.name = true)

/-- All users valid. -/
def ValidStorage (lle : String → String → Bool) (s : Storage) : Prop :=
  ∀ u ∈ s, ValidUser lle u

/-- Tables reachable through the store's mutating operations, starting from
the empty store. -/
inductive ReachableStorage (lle : String → String → Bool) : Storage → Prop
  | nil : ReachableStorage lle []
  | createUser {s : Storage} (uid cid : Int) (h : ReachableStorage lle s) :
      ReachableStorage lle (createUserIfNotExists s uid cid).1
  | addAct {s : Storage} (uid : Int) (input : ActionInput) (freshId : String)
      {s' : Storage} {k : Nat} (h : ReachableStorage lle s)
      (hadd : addAction lle s uid input freshId = .ok (s', k)) :
      ReachableStorage lle s'
  | removeAct {s : Storage} (uid : Int) (aid : String) {s' : Storage}
      {res : Option Action} {k : Nat} (h : ReachableStorage lle s)
      (hrem : removeAction s uid aid = .ok (s', res, k)) :
      ReachableStorage lle s'
  | addNotif {s : Storage} (uid : Int) (input : NotificationInput) (freshId : String)
      {s' : Storage} {n : Notification} {k : Nat} (h : ReachableStorage lle s)
      (hadd : addNotification lle s uid input freshId = .ok (s', n, k)) :
      ReachableStorage lle s'
  | removeNotif {s : Storage} (uid : Int) (nid : String) {s' : Storage}
      {res : Option Notification} {k : Nat} (h : ReachableStorage lle s)
      (hrem : removeNotification s uid nid = .ok (s', res, k)) :
      ReachableStorage lle s'

/-- A successful `ActionValidator.parse` yields a valid action. -/
theorem actionValidator_parse_valid {fid : String} {input : ActionInput} {a : Action}
    (h : ActionValidator.parse fid input = some a) : validAction a = true := by
  unfold ActionValidator.parse at h
  by_cases hu : isUuid fid
  · rw [if_pos hu] at h
    have := Option.some.inj h
    rw [validAction, ← this]
    exact hu
  · rw [if_neg hu] at h
    exact absurd h (by simp)

/-- A successful `NotificationValidator.parse` yields a valid notification. -/
theorem notificationValidator_parse_valid {fid : String} {input : NotificationInput}
    {n : Notification} (h : NotificationValidator.parse fid input = some n) :
    validNotification n = true := by
  unfold NotificationValidator.parse at h
  cases hop : parseOperator input.operator with
  | none => rw [hop] at h; exact absurd h (by simp)
  | some op =>
    rw [hop] at h
    dsimp only at h
    by_cases hc : (isUuid fid && decide (1000 ≤ input.intervalMs))
    · rw [if_pos hc] at h
      have := Option.some.inj h
      rw [validNotification, ← this]
      exact hc
    · rw [if_neg hc] at h
      exact absurd h (by simp)

/-- A successful `getUser` returns a member of the store. -/
theorem getUser_mem {s : Storage} {uid : Int} {u : User} (h : getUser s uid = .ok u) :
    u ∈ s := by
  unfold getUser at h
  cases hfu : List.find? (fun w => w.id == uid) s with
  | none => rw [hfu] at h; exact absurd h (by simp)
  | some w =>
    rw [hfu] at h
    have hw := Except.ok.inj h
    rw [← hw]
    exact List.mem_of_find?_eq_some hfu

/-- Members of `setFirstUser s uid u'` come from `s` or are `u'`. -/
theorem mem_setFirstUser {s : Storage} {uid : Int} {u' w : User}
    (h : w ∈ setFirstUser s uid u') : w ∈ s ∨ w = u' := by
  induction s with
  | nil => simp [setFirstUser] at h
  | cons a t ih =>
    unfold setFirstUser at h
    by_cases ha : (a.id == uid)
    · rw [if_pos ha] at h
      rcases List.mem_cons.mp h with h1 | h1
      · exact Or.inr h1
      · exact Or.inl (List.mem_cons_of_mem a h1)
    · rw [if_neg ha] at h
      rcases List.mem_cons.mp h with h1 | h1
      · exact Or.inl (by rw [h1]; exact List.mem_cons_self a t)
      · rcases ih h1 with h2 | h2
        · exact Or.inl (List.mem_cons_of_mem a h2)
        · exact Or.inr h2

/-- Every table reachable through the store's mutating operations is made of
validated records with each user's action list sorted by name. -/
theorem reachable_valid (lle : String → String → Bool)
    (htrans : ∀ a b c, lle a b = true → lle b c = true → lle a c = true)
    (htot : ∀ a b, (lle a b || lle b a) = true)
    (s : Storage) (h : ReachableStorage lle s) : ValidStorage lle s := by
  have ltrans : ∀ a b c : Action, lle a.name b.name = true → lle b.name c.name = true →
      lle a.name c.name = true := fun a b c h1 h2 => htrans _ _ _ h1 h2
  have ltot : ∀ a b : Action, (lle a.name b.name || lle b.name a.name) = true :=
    fun a b => htot _ _
  induction h with
  | nil => intro u hu; exact absurd hu (by simp)
  | createUser uid cid h ih =>
    intro u hu
    unfold createUserIfNotExists at hu
    split at hu
    · exact ih u hu
    · dsimp only at hu
      rcases List.mem_append.mp hu with h1 | h1
      · exact ih u h1
      · have he : u = { id := uid, chatId := cid, actions := [], notifications := [] } := by
          simpa using h1
        subst he
        exact ⟨by simp, by simp, by simp⟩
  | addAct uid input freshId h hadd ih =>
    unfold addAction at hadd
    cases hgu : getUser _ uid with
    | error e => rw [hgu] at hadd; exact absurd hadd (by simp)
    | ok user =>
      rw [hgu] at hadd
      dsimp only at hadd
      cases hpa : ActionValidator.parse freshId input with
      | none => rw [hpa] at hadd; exact absurd hadd (by simp)
      | some action =>
        rw [hpa] at hadd
        dsimp only at hadd
        have hinj := Except.ok.inj hadd
        have hs' := congrArg Prod.fst hinj
        dsimp only at hs'
        rw [← hs']
        have huser := getUser_mem hgu
        intro w hw
        rcases mem_setFirstUser hw with h1 | h1
        · exact ih w h1
        · subst h1
          obtain ⟨hva, hvn, _⟩ := ih user huser
          refine ⟨?_, hvn, ?_⟩
          · intro a ha
            rw [List.mem_mergeSort] at ha
            rcases List.mem_append.mp ha with h2 | h2
            · exact hva a h2
            · have : a = action := by simpa using h2
              subst this
              exact actionValidator_parse_valid hpa
          · exact List.sorted_mergeSort ltrans ltot _
  | removeAct uid aid h hrem ih =>
    unfold removeAction at hrem
    cases hgu : getUser _ uid with
    | error e => rw [hgu] at hrem; exact absurd hrem (by simp)
    | ok user =>
      rw [hgu] at hrem
      dsimp only at hrem
      cases hfa : List.find? (fun a => a.id == aid) user.actions with
      | none =>
        rw [hfa] at hrem
        have hinj := Except.ok.inj hrem
        have hs' := congrArg Prod.fst hinj
        dsimp only at hs'
        rw [← hs']
        exact ih
      | some action =>
        rw [hfa] at hrem
        dsimp only at hrem
        have hinj := Except.ok.inj hrem
        have hs' := congrArg Prod.fst hinj
        dsimp only at hs'
        rw [← hs']
        intro w hw
        rcases mem_setFirstUser hw with h1 | h1
        · exact ih w h1
        · subst h1
          have huser := getUser_mem hgu
          obtain ⟨hva, hvn, hso⟩ := ih user huser
          refine ⟨?_, hvn, List.Pairwise.sublist (List.eraseP_sublist _) hso⟩
          intro a ha
          exact hva a (List.mem_of_mem_eraseP ha)
  | addNotif uid input freshId h hadd ih =>
    unfold addNotification at hadd
    cases hpa : NotificationValidator.parse freshId input with
    | none => rw [hpa] at hadd; exact absurd hadd (by simp)
    | some notification =>
      rw [hpa] at hadd
      dsimp only at hadd
      cases hgu : getUser _ uid with
      | error e => rw [hgu] at hadd; exact absurd hadd (by simp)
      | ok user =>
        rw [hgu] at hadd
        dsimp only at hadd
        have hinj := Except.ok.inj hadd
        have hs' := congrArg Prod.fst hinj
        dsimp only at hs'
        rw [← hs']
        have huser := getUser_mem hgu
        intro w hw
        rcases mem_setFirstUser hw with h1 | h1
        · exact ih w h1
        · subst h1
          obtain ⟨hva, hvn, hso⟩ := ih user huser
          refine ⟨hva, ?_, hso⟩
          intro n hn
          rw [List.mem_mergeSort] at hn
          rcases List.mem_append.mp hn with h2 | h2
          · exact hvn n h2
          · have : n = notification := by simpa using h2
            subst this
            exact notificationValidator_parse_valid hpa
  | removeNotif uid nid h hrem ih =>
    unfold removeNotification at hrem
    cases hgu : getUser _ uid with
    | error e => rw [hgu] at hrem; exact absurd hrem (by simp)
    | ok user =>
      rw [hgu] at hrem
      dsimp only at hrem
      cases hfn : List.find? (fun n => n.id == nid) user.notifications with
      | none =>
        rw [hfn] at hrem
        have hinj := Except.ok.inj hrem
        have hs' := congrArg Prod.fst hinj
        dsimp only at hs'
        rw [← hs']
        exact ih
      | some notification =>
        rw [hfn] at hrem
        dsimp only at hrem
        have hinj := Except.ok.inj hrem
        have hs' := congrArg Prod.fst hinj
        dsimp only at hs'
        rw [← hs']
        intro w hw
        rcases mem_setFirstUser hw with h1 | h1
        · exact ih w h1
        · subst h1
          have huser := getUser_mem hgu
          obtain ⟨hva, hvn, hso⟩ := ih user huser
          refine ⟨hva, ?_, hso⟩
          intro n hn
          exact hvn n (List.mem_of_mem_eraseP hn)

/-- Tag filters decode back unchanged. -/
theorem decodeTagFilter_encode (f : InfluxTagFilter) :
    decodeTagFilter (encodeTagFilter f) = some f := rfl

/-- Valid actions decode back unchanged. -/
theorem decodeAction_encode (a : Action) (h : validAction a = true) :
    decodeAction (encodeAction a) = some a := by
  have e1 : decodeAction (encodeAction a)
      = if isUuid a.id then some { id := a.id, name := a.name, command := a.command }
        else none := rfl
  rw [e1, if_pos (show isUuid a.id = true from h)]

/-- The operator string round-trips. -/
theorem parseOperator_operatorToString (op : Operator) :
    parseOperator (operatorToString op) = some op := by
  cases op <;> rfl

/-- Elementwise decoding of an encoded list. -/
theorem decodeListWith_map {α : Type} (f : Json → Option α) (g : α → Json) (l : List α)
    (h : ∀ x ∈ l, f (g x) = some x) : decodeListWith f (l.map g) = some l := by
  induction l with
  | nil => rfl
  | cons a t ih =>
    rw [List.map_cons]
    unfold decodeListWith
    rw [h a (List.mem_cons_self a t), ih (fun x hx => h x (List.mem_cons_of_mem a hx))]

/-- Valid notifications decode back unchanged. -/
theorem decodeNotification_encode (n : Notification) (h : validNotification n = true) :
    decodeNotification (encodeNotification n) = some n := by
  have e1 : decodeNotification (encodeNotification n)
      = match parseOperator (operatorToString n.operator),
          decodeListWith decodeTagFilter (n.whereFilters.map encodeTagFilter) with
        | some op, some filters =>
          if isUuid n.id && decide (1000 ≤ n.intervalMs) then
            some { id := n.id, name := n.name, operator := op, value := n.value,
                   intervalMs := n.intervalMs, bucket := n.bucket,
                   measurement := n.measurement, field := n.field,
                   whereFilters := filters }
          else none
        | _, _ => none := rfl
  rw [e1, parseOperator_operatorToString,
    decodeListWith_map decodeTagFilter encodeTagFilter n.whereFilters
      (fun x _ => decodeTagFilter_encode x)]
  dsimp only
  rw [if_pos (show (isUuid n.id && decide (1000 ≤ n.intervalMs)) = true from h)]

/-- Valid users decode back unchanged. -/
theorem decodeUser_encode (u : User)
    (hva : ∀ a ∈ u.actions, validAction a = true)
    (hvn : ∀ n ∈ u.notifications, validNotification n = true) :
    decodeUser (encodeUser u) = some u := by
  have e1 : decodeUser (encodeUser u)
      = match decodeListWith decodeAction (u.actions.map encodeAction) with
        | some actions =>
          match decodeListWith decodeNotification (u.notifications.map encodeNotification) with
          | some notifications =>
            some { id := u.id, chatId := u.chatId, actions := actions,
                   notifications := notifications }
          | none => none
        | none => none := rfl
  rw [e1,
    decodeListWith_map decodeAction encodeAction u.actions
      (fun x hx => decodeAction_encode x (hva x hx)),
    decodeListWith_map decodeNotification encodeNotification u.notifications
      (fun x hx => decodeNotification_encode x (hvn x hx))]

/-- Valid stores decode back unchanged. -/
theorem decodeStorage_encode (lle : String → String → Bool) (s : Storage)
    (hv : ValidStorage lle s) : decodeStorage (encodeStorage s) = some s := by
  have e1 : decodeStorage (encodeStorage s) = decodeListWith decodeUser (s.map encodeUser) :=
    rfl
  rw [e1, decodeListWith_map decodeUser encodeUser s
    (fun u hu => decodeUser_encode u (hv u hu).1 (hv u hu).2.1)]

/-- **C7**: serializing a table reachable through the store's mutating
operations and reloading it through `init()`'s parse-validate-sort path
yields the identical table, field for field. `lle` is the `localeCompare`
comparator (assumed transitive and total, as ICU collation is). -/
theorem storage_roundtrip (lle : String → String → Bool)
    (htrans : ∀ a b c, lle a b = true → lle b c = true → lle a c = true)
    (htot : ∀ a b, (lle a b || lle b a) = true)
    (s : Storage) (h : ReachableStorage lle s) :
    initReload lle (encodeStorage s) = some s := by
  have hv := reachable_valid lle htrans htot s h
  unfold initReload
  rw [decodeStorage_encode lle s hv]
  simp only [Option.map_some']
  have hmap : s.map (fun u =>
      { u with actions := u.actions.mergeSort (fun a b => lle a.name b.name) }) = s.map id := by
    apply List.map_congr_left
    intro u hu
    have hp := (hv u hu).2.2
    rw [List.mergeSort_of_sorted hp]
    rfl
  rw [hmap, List.map_id]

/-- The store produced by creating user 1 and adding one valid notification. -/
def reachedUser : User :=
  { id := 1, chatId := 100, actions := [],
    notifications := [builtNotification uuidA sampleInput .gt] }

/-- The comparator used to instantiate `lle` in witnesses: a transitive and
total (not antisymmetric) comparison, like a collation. -/
def lenLe (a b : String) : Bool := decide (a.length ≤ b.length)

/-- Witness for C7: a table reached by `createUserIfNotExists` followed by
`addNotification` round-trips through the persisted document. -/
theorem storage_roundtrip_witness :
    initReload lenLe (encodeStorage [reachedUser]) = some [reachedUser] := by
  have htrans : ∀ a b c, lenLe a b = true → lenLe b c = true → lenLe a c = true := by
    intro a b c h1 h2
    simp only [lenLe, decide_eq_true_eq] at h1 h2 ⊢
    omega
  have htot : ∀ a b, (lenLe a b || lenLe b a) = true := by
    intro a b
    simp only [lenLe, Bool.or_eq_true, decide_eq_true_eq]
    omega
  have h0 : ReachableStorage lenLe [] := .nil
  have h1 : ReachableStorage lenLe [{ id := 1, chatId := 100, actions := [], notifications := [] }] := by
    have := ReachableStorage.createUser 1 100 h0
    rwa [show (createUserIfNotExists [] 1 100).1
        = [{ id := 1, chatId := 100, actions := [], notifications := [] }] from by decide] at this
  have hadd : addNotification lenLe
      [{ id := 1, chatId := 100, actions := [], notifications := [] }] 1 sampleInput uuidA
      = .ok ([reachedUser], builtNotification uuidA sampleInput .gt, 1) := by
    unfold addNotification NotificationValidator.parse getUser
    rw [show parseOperator sampleInput.operator = some Operator.gt from rfl]
    rw [show isUuid uuidA = true from by decide]
    simp [sampleInput, reachedUser, builtNotification, setFirstUser]
  exact storage_roundtrip lenLe htrans htot [reachedUser]
    (.addNotif 1 sampleInput uuidA h1 hadd)

end TgBot
